import Mathlib

/-!
Shallow embedding of the `sl_string` managed byte-buffer library
(`src/src/sl_string.c`, `src/include/sl_string.h`).

Modelling choices:
* A header (`sl_hdr`) carries `magic`, `hash`, `len`, `cap` and the byte
  region `data` (the C flexible array member), bytes as `Nat` values of a
  `List`.
* The heap is a list of headers; an `sl_str` reference is `Option Nat`,
  the address being the index into the heap (`none` models the C `NULL`
  pointer).  Freeing tombstones the header in place (magic overwritten
  with 0), modelling freed-but-not-recycled memory so stale references
  remain observable, exactly what the validity tag is for.
* `malloc`/`realloc` success is an explicit `allocOk : Bool` parameter.
* 64-bit wraparound arithmetic of the hash is `% 2 ^ 64` on `Nat`.
* A C string argument is the sequence of bytes readable at the pointer;
  `strlen` finds its first zero byte.
-/

namespace SlString

def SL_MAGIC : Nat := 0x534C4942

def FNV_PRIME : Nat := 1099511628211

def FNV_OFFSET : Nat := 14695981039346656037

def U64 : Nat := 2 ^ 64

def SIZE_MAX : Nat := 2 ^ 64 - 1

/-- The `sl_hdr` struct of `sl_string.c`: metadata record followed by the
byte region (`char data[]`). -/
structure sl_hdr where
  magic : Nat
  hash : Nat
  len : Nat
  cap : Nat
  data : List Nat
deriving DecidableEq

/-- The `sl_err` error enum of `sl_string.h`. -/
inductive sl_err where
  | SL_OK
  | SL_ERR_ALLOC
  | SL_ERR_INVALID
  | SL_ERR_NULL
deriving DecidableEq

/-- The heap: allocated headers indexed by address. -/
abbrev Heap := List sl_hdr

/-- A buffer reference (`sl_str`): `none` is the C `NULL`. -/
abbrev sl_str := Option Nat

/-- C `strlen` applied to the bytes readable at a pointer: scans to the
first zero byte and counts the bytes before it. -/
def strlen : List Nat → Nat
  | [] => 0
  | b :: t => if b = 0 then 0 else strlen t + 1

/-- The logical content of a C string: the bytes before its first zero. -/
def cstrContent : List Nat → List Nat
  | [] => []
  | b :: t => if b = 0 then [] else b :: cstrContent t

/-- `sl__compute_hash` of `sl_string.c`: FNV-1a over `len` bytes.  The C
loop reads `len` bytes from the pointer; here the argument list is that
byte span. -/
def sl__compute_hash (bytes : List Nat) : Nat :=
  bytes.foldl (fun hash b => ((hash ^^^ b) * FNV_PRIME) % U64) FNV_OFFSET

/-- `sl__validate` of `sl_string.c`: `NULL` reference gives `SL_ERR_NULL`;
a reference whose header's magic is not `SL_MAGIC` (including an address
outside every library allocation) gives `SL_ERR_INVALID`; otherwise the
header is returned with `SL_OK`. -/
def sl__validate (heap : Heap) (str : sl_str) : sl_err × Option sl_hdr :=
  match str with
  | none => (sl_err.SL_ERR_NULL, none)
  | some a =>
    match heap[a]? with
    | none => (sl_err.SL_ERR_INVALID, none)
    | some hdr =>
      if hdr.magic ≠ SL_MAGIC then (sl_err.SL_ERR_INVALID, none)
      else (sl_err.SL_OK, some hdr)

/-- `sl_from_cstr` of `sl_string.c`.  `init = none` models a `NULL`
pointer, otherwise `init` is the byte sequence at the pointer.  The C
code copies `len + 1` bytes (content plus terminator) into the fresh
allocation and hashes the first `len` bytes. -/
def sl_from_cstr (heap : Heap) (allocOk : Bool) (init : Option (List Nat)) :
    Heap × sl_str × sl_err :=
  match init with
  | none => (heap, none, sl_err.SL_ERR_NULL)
  | some s =>
    let len := strlen s
    let cap := len + 1
    if !allocOk then (heap, none, sl_err.SL_ERR_ALLOC)
    else
      let data := s.take (len + 1)
      let hdr : sl_hdr :=
        { magic := SL_MAGIC, hash := sl__compute_hash (data.take len),
          len := len, cap := cap, data := data }
      (heap ++ [hdr], some heap.length, sl_err.SL_OK)

/-- `sl_free` of `sl_string.c`.  Takes and returns the caller's handle
(the C `sl_str *str` slot).  On success the magic is overwritten with 0
(tombstone) and the handle is cleared; the tombstoned header stays in the
heap, modelling released-but-not-reused memory. -/
def sl_free (heap : Heap) (str : sl_str) : Heap × sl_str × sl_err :=
  match str with
  | none => (heap, none, sl_err.SL_OK)
  | some a =>
    match sl__validate heap (some a) with
    | (sl_err.SL_OK, some hdr) =>
      (heap.set a { hdr with magic := 0 }, none, sl_err.SL_OK)
    | (e, _) => (heap, some a, e)

/-- `sl_len` of `sl_string.c`. -/
def sl_len (heap : Heap) (str : sl_str) : Nat × sl_err :=
  match sl__validate heap str with
  | (sl_err.SL_OK, some hdr) => (hdr.len, sl_err.SL_OK)
  | (e, _) => (SIZE_MAX, e)

/-- `sl_cap` of `sl_string.c`. -/
def sl_cap (heap : Heap) (str : sl_str) : Nat × sl_err :=
  match sl__validate heap str with
  | (sl_err.SL_OK, some hdr) => (hdr.cap, sl_err.SL_OK)
  | (e, _) => (SIZE_MAX, e)

/-- `sl_append_cstr` of `sl_string.c`.  When growth is needed the
allocation is resized (realloc) to exactly `new_cap` bytes: the old bytes
are preserved and the added room is indeterminate (modelled as zeros,
immediately overwritten by the copy).  The copy writes `init_len + 1`
bytes (suffix plus terminator) at offset `len`; then `len`, `cap` and
`hash` are updated. -/
def sl_append_cstr (heap : Heap) (allocOk : Bool) (str : sl_str)
    (init : Option (List Nat)) : Heap × sl_str × sl_err :=
  match init with
  | none => (heap, str, sl_err.SL_ERR_NULL)
  | some s =>
    match str, sl__validate heap str with
    | some a, (sl_err.SL_OK, some hdr) =>
      let init_len := strlen s
      let new_len := hdr.len + init_len
      let new_cap := new_len + 1
      if new_cap > hdr.cap && !allocOk then (heap, none, sl_err.SL_ERR_ALLOC)
      else
        let buf :=
          if new_cap > hdr.cap then
            hdr.data.take new_cap ++ List.replicate (new_cap - hdr.data.length) 0
          else hdr.data
        let buf2 := buf.take hdr.len ++ s.take (init_len + 1)
          ++ buf.drop (hdr.len + init_len + 1)
        let hdr2 : sl_hdr :=
          { hdr with hash := sl__compute_hash (buf2.take new_len),
                     len := new_len, cap := new_cap, data := buf2 }
        (heap.set a hdr2, some a, sl_err.SL_OK)
    | _, (e, _) => (heap, str, e)

/-- The reallocation condition of `sl_append_cstr` (`new_cap > hdr->cap`,
line 248 of `sl_string.c`): whether the append relocates the allocation. -/
def sl_append_reallocates (heap : Heap) (str : sl_str) (init : List Nat) : Bool :=
  match sl__validate heap str with
  | (sl_err.SL_OK, some hdr) => decide (hdr.len + strlen init + 1 > hdr.cap)
  | _ => false

/-- `sl_eq` of `sl_string.c`: validate both, pointer-identity fast path,
hash comparison, length comparison, then `memcmp` over `len` bytes. -/
def sl_eq (heap : Heap) (str1 str2 : sl_str) : Bool × sl_err :=
  match sl__validate heap str1, sl__validate heap str2 with
  | (sl_err.SL_OK, some h1), (sl_err.SL_OK, some h2) =>
    if str1 = str2 then (true, sl_err.SL_OK)
    else if h1.hash ≠ h2.hash then (false, sl_err.SL_OK)
    else if h1.len ≠ h2.len then (false, sl_err.SL_OK)
    else (decide (h1.data.take h1.len = h2.data.take h1.len), sl_err.SL_OK)
  | (e1, _), (e2, _) =>
    (false, if e1 ≠ sl_err.SL_OK then e1 else e2)

/-- Modelled from the spec: `sl_from_bytes` is declared in
`src/include/sl_string.h` and exercised by the tests, but its definition
is not among the sources.  Spec §4.1 "Construct from explicit byte
range": length is the supplied count with no terminator scanning, a
terminator is appended after the given bytes, capacity is count + 1,
with the same failure modes as construct-from-text. -/
def sl_from_bytes (heap : Heap) (allocOk : Bool) (bytes : Option (List Nat))
    (len : Nat) : Heap × sl_str × sl_err :=
  match bytes with
  | none => (heap, none, sl_err.SL_ERR_NULL)
  | some s =>
    if !allocOk then (heap, none, sl_err.SL_ERR_ALLOC)
    else
      let data := s.take len ++ [0]
      let hdr : sl_hdr :=
        { magic := SL_MAGIC, hash := sl__compute_hash (data.take len),
          len := len, cap := len + 1, data := data }
      (heap ++ [hdr], some heap.length, sl_err.SL_OK)

/-- The logical content of a buffer: its first `len` bytes. -/
def content (h : sl_hdr) : List Nat := h.data.take h.len

/-- The invariant of spec §3 named by the claims: capacity at least
length + 1, stored hash consistent with the current content. -/
def wf (h : sl_hdr) : Prop :=
  h.len + 1 ≤ h.cap ∧ h.hash = sl__compute_hash (content h)

/-- The full shape of a library-created live buffer: valid magic,
tight capacity, region of exactly `cap` bytes, terminator at index
`len`, consistent hash. -/
def goodHdr (h : sl_hdr) : Prop :=
  h.magic = SL_MAGIC ∧ h.cap = h.len + 1 ∧ h.data.length = h.cap ∧
    h.data[h.len]? = some 0 ∧ h.hash = sl__compute_hash (content h)

/-- Every live (valid-magic) buffer of the heap satisfies `wf`. -/
def heapWF (heap : Heap) : Prop :=
  ∀ h ∈ heap, h.magic = SL_MAGIC → wf h

instance (h : sl_hdr) : Decidable (wf h) := by
  unfold wf; infer_instance

instance (h : sl_hdr) : Decidable (goodHdr h) := by
  unfold goodHdr; infer_instance

instance (heap : Heap) : Decidable (heapWF heap) := by
  unfold heapWF; infer_instance

/-! Helper lemmas about `strlen` and `cstrContent`. -/

theorem cstrContent_length (s : List Nat) : (cstrContent s).length = strlen s := by
  induction s with
  | nil => rfl
  | cons b t ih =>
    by_cases hb : b = 0 <;> simp [cstrContent, strlen, hb, ih]

theorem strlen_le_length (s : List Nat) : strlen s ≤ s.length := by
  induction s with
  | nil => exact Nat.le_refl 0
  | cons b t ih =>
    by_cases hb : b = 0
    · simp [strlen, hb]
    · simp [strlen, hb]
      omega

theorem take_strlen (s : List Nat) : s.take (strlen s) = cstrContent s := by
  induction s with
  | nil => rfl
  | cons b t ih =>
    by_cases hb : b = 0 <;> simp [strlen, cstrContent, hb, ih]

theorem take_strlen_succ (s : List Nat) (hz : (0 : Nat) ∈ s) :
    s.take (strlen s + 1) = cstrContent s ++ [0] := by
  induction s with
  | nil => cases hz
  | cons b t ih =>
    by_cases hb : b = 0
    · simp [strlen, cstrContent, hb]
    · have hz' : (0 : Nat) ∈ t := by
        cases List.mem_cons.mp hz with
        | inl h => exact absurd h.symm hb
        | inr h => exact h
      simp [strlen, cstrContent, hb, ih hz']

theorem get_strlen (s : List Nat) (hz : (0 : Nat) ∈ s) :
    s[strlen s]? = some 0 := by
  induction s with
  | nil => cases hz
  | cons b t ih =>
    by_cases hb : b = 0
    · simp [strlen, hb]
    · have hz' : (0 : Nat) ∈ t := by
        cases List.mem_cons.mp hz with
        | inl h => exact absurd h.symm hb
        | inr h => exact h
      simp [strlen, hb, ih hz']

theorem no_zero_before_strlen (s : List Nat) (i : Nat) (h : i < strlen s) :
    ∃ b, s[i]? = some b ∧ b ≠ 0 := by
  induction s generalizing i with
  | nil => simp [strlen] at h
  | cons b t ih =>
    by_cases hb : b = 0
    · simp [strlen, hb] at h
    · cases i with
      | zero => exact ⟨b, by simp, hb⟩
      | succ j =>
        simp [strlen, hb] at h
        simpa using ih j h

theorem strlen_eq_zero_take (s : List Nat) (hz : (0 : Nat) ∈ s)
    (h0 : strlen s = 0) : s.take 1 = [0] := by
  have := take_strlen_succ s hz
  rw [h0] at this
  have hc : cstrContent s = [] := by
    have := cstrContent_length s
    rw [h0, List.length_eq_zero] at this
    exact this
  rw [hc] at this
  simpa using this

/-! Helper lemmas about the heap and validation. -/

theorem set_self (l : List sl_hdr) (a : Nat) (x : sl_hdr)
    (h : l[a]? = some x) : l.set a x = l := by
  induction l generalizing a with
  | nil => simp at h
  | cons y t ih =>
    cases a with
    | zero => simp at h; simp [h]
    | succ j => simp at h; simp [ih j h]

theorem validate_some (heap : Heap) (a : Nat) (hdr : sl_hdr)
    (hget : heap[a]? = some hdr) (hm : hdr.magic = SL_MAGIC) :
    sl__validate heap (some a) = (sl_err.SL_OK, some hdr) := by
  simp [sl__validate, hget, hm]

theorem validate_invalid (heap : Heap) (a : Nat) (hdr : sl_hdr)
    (hget : heap[a]? = some hdr) (hm : hdr.magic ≠ SL_MAGIC) :
    sl__validate heap (some a) = (sl_err.SL_ERR_INVALID, none) := by
  simp [sl__validate, hget, hm]

theorem validate_fst_ok (heap : Heap) (str : sl_str)
    (h : (sl__validate heap str).1 = sl_err.SL_OK) :
    ∃ hdr, sl__validate heap str = (sl_err.SL_OK, some hdr) := by
  unfold sl__validate at h ⊢
  match str with
  | none => simp at h
  | some a =>
    match hget : heap[a]? with
    | none => simp [hget] at h
    | some hdr =>
      simp only [hget] at h ⊢
      by_cases hm : hdr.magic = SL_MAGIC
      · simp [hm]
      · simp [hm] at h

/-- Unfolded success equation of `sl_from_cstr`. -/
theorem from_cstr_ok_eq (heap : Heap) (s : List Nat) :
    sl_from_cstr heap true (some s) =
      (heap ++ [{ magic := SL_MAGIC,
                  hash := sl__compute_hash ((s.take (strlen s + 1)).take (strlen s)),
                  len := strlen s, cap := strlen s + 1,
                  data := s.take (strlen s + 1) }],
       some heap.length, sl_err.SL_OK) := rfl

/-! The claims. -/

/-- C6: the hash algorithm is 64-bit FNV-1a: starting from the standard
offset basis 14695981039346656037 — which is exactly the hash of zero
bytes — each input byte in order is XORed into the state, and the state
is then multiplied by the standard FNV prime 1099511628211, all in 64-bit
wraparound arithmetic (mod 2^64). -/
theorem compute_hash_is_fnv1a (bytes : List Nat) (b : Nat) :
    sl__compute_hash [] = 14695981039346656037 ∧
    sl__compute_hash (bytes ++ [b]) =
      ((sl__compute_hash bytes ^^^ b) * 1099511628211) % 2 ^ 64 := by
  refine ⟨rfl, ?_⟩
  simp [sl__compute_hash, List.foldl_append, FNV_PRIME, U64]

/-- C2: construct-from-text on a zero-terminated input returns a fresh
buffer whose length is the position of the input's first zero byte (no
earlier byte is zero and the byte at that position is zero), capacity
equals length + 1, the hash is computed over exactly the first length
bytes, and a terminator sits at index length; an absent input fails with
`SL_ERR_NULL`. -/
theorem from_cstr_spec (heap : Heap) (allocOk : Bool) (s : List Nat)
    (hz : (0 : Nat) ∈ s) :
    (∃ hdr,
      (sl_from_cstr heap true (some s)).1[heap.length]? = some hdr ∧
      (sl_from_cstr heap true (some s)).2.1 = some heap.length ∧
      (sl_from_cstr heap true (some s)).2.2 = sl_err.SL_OK ∧
      hdr.len = strlen s ∧
      (∀ i < strlen s, ∃ b, s[i]? = some b ∧ b ≠ 0) ∧
      s[strlen s]? = some 0 ∧
      hdr.cap = hdr.len + 1 ∧
      hdr.hash = sl__compute_hash (s.take (strlen s)) ∧
      hdr.data[hdr.len]? = some 0) ∧
    sl_from_cstr heap allocOk none = (heap, none, sl_err.SL_ERR_NULL) := by
  constructor
  · rw [from_cstr_ok_eq]
    refine ⟨_, List.getElem?_concat_length _ _, rfl, rfl, rfl,
      fun i hi => no_zero_before_strlen s i hi, get_strlen s hz, rfl, ?_, ?_⟩
    · simp [List.take_take]
    · rw [List.getElem?_take_of_lt (Nat.lt_succ_self _)]
      exact get_strlen s hz
  · rfl

/-- Closed instance of `from_cstr_spec` at the input "Hi". -/
theorem from_cstr_spec_witness :
    (0 : Nat) ∈ [72, 105, 0] ∧
    ((∃ hdr,
      (sl_from_cstr [] true (some [72, 105, 0])).1[(0 : Nat)]? = some hdr ∧
      (sl_from_cstr [] true (some [72, 105, 0])).2.1 = some 0 ∧
      (sl_from_cstr [] true (some [72, 105, 0])).2.2 = sl_err.SL_OK ∧
      hdr.len = strlen [72, 105, 0] ∧
      (∀ i < strlen [72, 105, 0], ∃ b, [72, 105, 0][i]? = some b ∧ b ≠ 0) ∧
      [72, 105, 0][strlen [72, 105, 0]]? = some 0 ∧
      hdr.cap = hdr.len + 1 ∧
      hdr.hash = sl__compute_hash ([72, 105, 0].take (strlen [72, 105, 0])) ∧
      hdr.data[hdr.len]? = some 0) ∧
    sl_from_cstr [] true none = ([], none, sl_err.SL_ERR_NULL)) :=
  ⟨by decide, from_cstr_spec [] true [72, 105, 0] (by decide)⟩

/-- C9: construct-from-bytes with an explicit count n yields a buffer of
length exactly n — interior zero bytes are kept as ordinary content, the
result content being the first n input bytes verbatim — with capacity
n + 1 and a terminator appended after the n bytes. -/
theorem from_bytes_spec (heap : Heap) (s : List Nat) (n : Nat)
    (hn : n ≤ s.length) :
    ∃ hdr,
      (sl_from_bytes heap true (some s) n).1[heap.length]? = some hdr ∧
      (sl_from_bytes heap true (some s) n).2.1 = some heap.length ∧
      (sl_from_bytes heap true (some s) n).2.2 = sl_err.SL_OK ∧
      hdr.len = n ∧ hdr.cap = n + 1 ∧
      content hdr = s.take n ∧
      hdr.data = s.take n ++ [0] ∧
      hdr.data[n]? = some 0 := by
  have hlen : (s.take n).length = n := by
    simp [List.length_take, Nat.min_eq_left hn]
  refine ⟨_, List.getElem?_concat_length _ _, rfl, rfl, rfl, rfl, ?_, rfl, ?_⟩
  · show (s.take n ++ [0]).take n = s.take n
    rw [List.take_append_of_le_length (le_of_eq hlen.symm), List.take_take]
    simp
  · show (s.take n ++ [0])[n]? = some 0
    have hcat := List.getElem?_concat_length (s.take n) 0
    rw [hlen] at hcat
    exact hcat

/-- Closed instance of `from_bytes_spec` at the spec's scenario bytes
{A, 0, B, 0, C} with count 5. -/
theorem from_bytes_spec_witness :
    (5 : Nat) ≤ [65, 0, 66, 0, 67].length ∧
    ∃ hdr,
      (sl_from_bytes [] true (some [65, 0, 66, 0, 67]) 5).1[(0 : Nat)]? = some hdr ∧
      (sl_from_bytes [] true (some [65, 0, 66, 0, 67]) 5).2.1 = some 0 ∧
      (sl_from_bytes [] true (some [65, 0, 66, 0, 67]) 5).2.2 = sl_err.SL_OK ∧
      hdr.len = 5 ∧ hdr.cap = 5 + 1 ∧
      content hdr = [65, 0, 66, 0, 67].take 5 ∧
      hdr.data = [65, 0, 66, 0, 67].take 5 ++ [0] ∧
      hdr.data[(5 : Nat)]? = some 0 :=
  ⟨by decide, from_bytes_spec [] [65, 0, 66, 0, 67] 5 (by decide)⟩

/-- C4: the mutating operations preserve the live-buffer invariant: if
every live buffer of the heap has capacity at least length + 1 and a
stored hash equal to the FNV-1a hash of its first length bytes, then the
same holds of every live buffer after construction and after append, on
every path. -/
theorem mutations_preserve_wf (heap : Heap) (hw : heapWF heap)
    (allocOk : Bool) (str : sl_str) (init : Option (List Nat)) :
    heapWF (sl_from_cstr heap allocOk init).1 ∧
    heapWF (sl_append_cstr heap allocOk str init).1 := by
  constructor
  · match init with
    | none => exact hw
    | some s =>
      cases allocOk with
      | false => exact hw
      | true =>
        rw [from_cstr_ok_eq]
        intro h hmem hmagic
        rcases List.mem_append.mp hmem with h1 | h1
        · exact hw h h1 hmagic
        · rw [List.mem_singleton] at h1
          subst h1
          exact ⟨Nat.le_refl _, rfl⟩
  · unfold sl_append_cstr
    split
    · exact hw
    · split
      · dsimp only
        split
        · exact hw
        · intro h hmem hmagic
          rcases List.mem_or_eq_of_mem_set hmem with h1 | h1
          · exact hw h h1 hmagic
          · subst h1
            exact ⟨Nat.le_refl _, rfl⟩
      · exact hw

/-- Closed instance of `mutations_preserve_wf` on a one-buffer heap. -/
theorem mutations_preserve_wf_witness :
    heapWF [{ magic := SL_MAGIC, hash := sl__compute_hash [65],
              len := 1, cap := 2, data := [65, 0] }] ∧
    (heapWF (sl_from_cstr
        [{ magic := SL_MAGIC, hash := sl__compute_hash [65],
           len := 1, cap := 2, data := [65, 0] }]
        true (some [66, 0])).1 ∧
     heapWF (sl_append_cstr
        [{ magic := SL_MAGIC, hash := sl__compute_hash [65],
           len := 1, cap := 2, data := [65, 0] }]
        true (some 0) (some [66, 0])).1) :=
  ⟨by decide, mutations_preserve_wf
    [{ magic := SL_MAGIC, hash := sl__compute_hash [65],
       len := 1, cap := 2, data := [65, 0] }]
    (by decide) true (some 0) (some [66, 0])⟩

/-- C5: append failure atomicity: an absent suffix fails with
`SL_ERR_NULL` leaving heap and reference untouched; a receiver failing
validation fails with `SL_ERR_INVALID` with the original reference
returned and the heap untouched; a refused reallocation when growth is
required fails with `SL_ERR_ALLOC`, leaves the original allocation
intact in the heap, and returns the null reference — an outcome distinct
from success. -/
theorem append_failure_atomic (heap : Heap) (a b : Nat) (ha hb : sl_hdr)
    (s t : List Nat) (allocOk : Bool) (str : sl_str)
    (hgeta : heap[a]? = some ha) (hmag : ha.magic ≠ SL_MAGIC)
    (hgetb : heap[b]? = some hb) (hbm : hb.magic = SL_MAGIC)
    (hgrow : hb.cap < hb.len + strlen t + 1) :
    sl_append_cstr heap allocOk str none = (heap, str, sl_err.SL_ERR_NULL) ∧
    sl_append_cstr heap allocOk (some a) (some s) =
      (heap, some a, sl_err.SL_ERR_INVALID) ∧
    sl_append_cstr heap false (some b) (some t) =
      (heap, none, sl_err.SL_ERR_ALLOC) := by
  refine ⟨rfl, ?_, ?_⟩
  · simp only [sl_append_cstr, validate_invalid heap a ha hgeta hmag]
  · simp only [sl_append_cstr, validate_some heap b hb hgetb hbm]
    simp [hgrow]

/-- Closed instance of `append_failure_atomic` on a heap holding one
tombstoned and one live buffer. -/
theorem append_failure_atomic_witness :
    ([{ magic := 0, hash := 0, len := 0, cap := 1, data := [0] },
      { magic := SL_MAGIC, hash := sl__compute_hash [65],
        len := 1, cap := 2, data := [65, 0] }] : Heap)[(0 : Nat)]? =
      some { magic := 0, hash := 0, len := 0, cap := 1, data := [0] } ∧
    (sl_append_cstr
        [{ magic := 0, hash := 0, len := 0, cap := 1, data := [0] },
         { magic := SL_MAGIC, hash := sl__compute_hash [65],
           len := 1, cap := 2, data := [65, 0] }] true none none =
      ([{ magic := 0, hash := 0, len := 0, cap := 1, data := [0] },
        { magic := SL_MAGIC, hash := sl__compute_hash [65],
          len := 1, cap := 2, data := [65, 0] }], none, sl_err.SL_ERR_NULL) ∧
     sl_append_cstr
        [{ magic := 0, hash := 0, len := 0, cap := 1, data := [0] },
         { magic := SL_MAGIC, hash := sl__compute_hash [65],
           len := 1, cap := 2, data := [65, 0] }] true (some 0) (some [0]) =
      ([{ magic := 0, hash := 0, len := 0, cap := 1, data := [0] },
        { magic := SL_MAGIC, hash := sl__compute_hash [65],
          len := 1, cap := 2, data := [65, 0] }], some 0, sl_err.SL_ERR_INVALID) ∧
     sl_append_cstr
        [{ magic := 0, hash := 0, len := 0, cap := 1, data := [0] },
         { magic := SL_MAGIC, hash := sl__compute_hash [65],
           len := 1, cap := 2, data := [65, 0] }] false (some 1) (some [66, 0]) =
      ([{ magic := 0, hash := 0, len := 0, cap := 1, data := [0] },
        { magic := SL_MAGIC, hash := sl__compute_hash [65],
          len := 1, cap := 2, data := [65, 0] }], none, sl_err.SL_ERR_ALLOC)) :=
  ⟨by decide, append_failure_atomic
    [{ magic := 0, hash := 0, len := 0, cap := 1, data := [0] },
     { magic := SL_MAGIC, hash := sl__compute_hash [65],
       len := 1, cap := 2, data := [65, 0] }]
    0 1
    { magic := 0, hash := 0, len := 0, cap := 1, data := [0] }
    { magic := SL_MAGIC, hash := sl__compute_hash [65],
      len := 1, cap := 2, data := [65, 0] }
    [0] [66, 0] true none
    (by decide) (by decide) (by decide) (by decide) (by decide)⟩

/-- C7: destroy is a success no-op on an absent handle; on a handle whose
buffer fails validation it reports `SL_ERR_INVALID`, leaving handle and
heap untouched; on success it overwrites the validity tag with the 0
tombstone, clears the caller's handle to the null reference, and a
subsequent accessor through the cleared handle yields `SL_ERR_NULL`. -/
theorem free_spec (heap : Heap) (a b : Nat) (ha hb : sl_hdr)
    (hgeta : heap[a]? = some ha) (hmag : ha.magic ≠ SL_MAGIC)
    (hgetb : heap[b]? = some hb) (hbm : hb.magic = SL_MAGIC) :
    sl_free heap none = (heap, none, sl_err.SL_OK) ∧
    sl_free heap (some a) = (heap, some a, sl_err.SL_ERR_INVALID) ∧
    sl_free heap (some b) =
      (heap.set b { hb with magic := 0 }, none, sl_err.SL_OK) ∧
    sl_len (sl_free heap (some b)).1 (sl_free heap (some b)).2.1 =
      (SIZE_MAX, sl_err.SL_ERR_NULL) := by
  have h3 : sl_free heap (some b) =
      (heap.set b { hb with magic := 0 }, none, sl_err.SL_OK) := by
    simp only [sl_free, validate_some heap b hb hgetb hbm]
  refine ⟨rfl, ?_, h3, ?_⟩
  · simp only [sl_free, validate_invalid heap a ha hgeta hmag]
  · rw [h3]
    rfl

/-- Closed instance of `free_spec` on a heap holding one tombstoned and
one live buffer. -/
theorem free_spec_witness :
    ([{ magic := 0, hash := 0, len := 0, cap := 1, data := [0] },
      { magic := SL_MAGIC, hash := sl__compute_hash [65],
        len := 1, cap := 2, data := [65, 0] }] : Heap)[(1 : Nat)]? =
      some { magic := SL_MAGIC, hash := sl__compute_hash [65],
             len := 1, cap := 2, data := [65, 0] } ∧
    (sl_free
        [{ magic := 0, hash := 0, len := 0, cap := 1, data := [0] },
         { magic := SL_MAGIC, hash := sl__compute_hash [65],
           len := 1, cap := 2, data := [65, 0] }] none =
      ([{ magic := 0, hash := 0, len := 0, cap := 1, data := [0] },
        { magic := SL_MAGIC, hash := sl__compute_hash [65],
          len := 1, cap := 2, data := [65, 0] }], none, sl_err.SL_OK) ∧
     sl_free
        [{ magic := 0, hash := 0, len := 0, cap := 1, data := [0] },
         { magic := SL_MAGIC, hash := sl__compute_hash [65],
           len := 1, cap := 2, data := [65, 0] }] (some 0) =
      ([{ magic := 0, hash := 0, len := 0, cap := 1, data := [0] },
        { magic := SL_MAGIC, hash := sl__compute_hash [65],
          len := 1, cap := 2, data := [65, 0] }], some 0, sl_err.SL_ERR_INVALID) ∧
     sl_free
        [{ magic := 0, hash := 0, len := 0, cap := 1, data := [0] },
         { magic := SL_MAGIC, hash := sl__compute_hash [65],
           len := 1, cap := 2, data := [65, 0] }] (some 1) =
      ([{ magic := 0, hash := 0, len := 0, cap := 1, data := [0] },
        { magic := 0, hash := sl__compute_hash [65],
          len := 1, cap := 2, data := [65, 0] }].set 1
            { magic := 0, hash := sl__compute_hash [65],
              len := 1, cap := 2, data := [65, 0] }, none, sl_err.SL_OK) ∧
     sl_len (sl_free
        [{ magic := 0, hash := 0, len := 0, cap := 1, data := [0] },
         { magic := SL_MAGIC, hash := sl__compute_hash [65],
           len := 1, cap := 2, data := [65, 0] }] (some 1)).1
       (sl_free
        [{ magic := 0, hash := 0, len := 0, cap := 1, data := [0] },
         { magic := SL_MAGIC, hash := sl__compute_hash [65],
           len := 1, cap := 2, data := [65, 0] }] (some 1)).2.1 =
      (SIZE_MAX, sl_err.SL_ERR_NULL)) := by
  refine ⟨by decide, ?_⟩
  have h := free_spec
    [{ magic := 0, hash := 0, len := 0, cap := 1, data := [0] },
     { magic := SL_MAGIC, hash := sl__compute_hash [65],
       len := 1, cap := 2, data := [65, 0] }]
    0 1
    { magic := 0, hash := 0, len := 0, cap := 1, data := [0] }
    { magic := SL_MAGIC, hash := sl__compute_hash [65],
      len := 1, cap := 2, data := [65, 0] }
    (by decide) (by decide) (by decide) (by decide)
  exact ⟨h.1, h.2.1, h.2.2.1, h.2.2.2⟩

/-- C8: if either operand of equals fails validation the result is
"not equal", and the reported classification is that of the first
failing operand (the first operand's when both fail); an absent
reference classifies as `SL_ERR_NULL`. -/
theorem eq_error_first (heap : Heap) (str1 str2 : sl_str)
    (h : (sl__validate heap str1).1 ≠ sl_err.SL_OK ∨
         (sl__validate heap str2).1 ≠ sl_err.SL_OK) :
    (sl_eq heap str1 str2).1 = false ∧
    (sl_eq heap str1 str2).2 =
      (if (sl__validate heap str1).1 ≠ sl_err.SL_OK
       then (sl__validate heap str1).1 else (sl__validate heap str2).1) ∧
    (sl__validate heap none).1 = sl_err.SL_ERR_NULL := by
  refine ⟨?_, ?_, rfl⟩ <;>
  · rcases hv1 : sl__validate heap str1 with ⟨e1, o1⟩
    rcases hv2 : sl__validate heap str2 with ⟨e2, o2⟩
    rw [hv1, hv2] at h
    have key : sl_eq heap str1 str2 =
        (false, if e1 ≠ sl_err.SL_OK then e1 else e2) := by
      unfold sl_eq
      rw [hv1, hv2]
      cases e1 <;> cases o1 <;> cases e2 <;> cases o2 <;> simp_all
    simp [key, hv1, hv2]

/-- C1: appending a zero-terminated suffix to a valid live buffer
succeeds, preserves the prior content as a prefix — the resulting
content is the old content followed by the suffix content — and the
resulting capacity is exactly the new length + 1 (tight-fit growth). -/
theorem append_preserves_prefix (heap : Heap) (a : Nat) (hdr : sl_hdr)
    (s : List Nat) (hget : heap[a]? = some hdr) (hgood : goodHdr hdr)
    (hz : (0 : Nat) ∈ s) :
    ∃ hdr2,
      (sl_append_cstr heap true (some a) (some s)).1[a]? = some hdr2 ∧
      (sl_append_cstr heap true (some a) (some s)).2.1 = some a ∧
      (sl_append_cstr heap true (some a) (some s)).2.2 = sl_err.SL_OK ∧
      content hdr2 = content hdr ++ cstrContent s ∧
      hdr2.len = hdr.len + strlen s ∧
      hdr2.cap = hdr2.len + 1 := by
  obtain ⟨hm, hcap, hdlen, hterm, hhash⟩ := hgood
  obtain ⟨halen, -⟩ := List.getElem?_eq_some.mp hget
  have hdl : hdr.data.length = hdr.len + 1 := by rw [hdlen, hcap]
  simp only [sl_append_cstr, validate_some heap a hdr hget hm, Bool.not_true,
    Bool.and_false, Bool.false_eq_true, if_false]
  have hbuf : (if hdr.len + strlen s + 1 > hdr.cap then
        List.take (hdr.len + strlen s + 1) hdr.data ++
          List.replicate (hdr.len + strlen s + 1 - hdr.data.length) 0
      else hdr.data) = hdr.data ++ List.replicate (strlen s) 0 := by
    split
    · rw [List.take_of_length_le (by omega)]
      congr 2
      omega
    · rename_i hng
      have hs0 : strlen s = 0 := by omega
      rw [hs0]
      simp
  have htakebuf : List.take hdr.len (hdr.data ++ List.replicate (strlen s) 0) =
      List.take hdr.len hdr.data :=
    List.take_append_of_le_length (by omega)
  have hdropbuf : List.drop (hdr.len + strlen s + 1)
      (hdr.data ++ List.replicate (strlen s) 0) = [] :=
    List.drop_eq_nil_of_le (by simp [List.length_append]; omega)
  rw [hbuf, htakebuf, hdropbuf, take_strlen_succ s hz, List.append_nil]
  refine ⟨_, List.getElem?_set_eq_of_lt _ halen, trivial, trivial, ?_, rfl, rfl⟩
  have h1 : (List.take hdr.len hdr.data).length = hdr.len := by
    simp [List.length_take]
    omega
  show (List.take hdr.len hdr.data ++ (cstrContent s ++ [0])).take
      (hdr.len + strlen s) = content hdr ++ cstrContent s
  rw [List.take_append_eq_append_take, h1,
      List.take_of_length_le
        (show (List.take hdr.len hdr.data).length ≤ hdr.len + strlen s by omega)]
  have h2 : hdr.len + strlen s - hdr.len = strlen s := by omega
  rw [h2, ← cstrContent_length s, List.take_left]
  rfl

/-- Closed instance of `append_preserves_prefix`: "Hi" with suffix "!". -/
theorem append_preserves_prefix_witness :
    ([{ magic := SL_MAGIC, hash := sl__compute_hash [72, 105],
        len := 2, cap := 3, data := [72, 105, 0] }] : Heap)[(0 : Nat)]? =
      some { magic := SL_MAGIC, hash := sl__compute_hash [72, 105],
             len := 2, cap := 3, data := [72, 105, 0] } ∧
    goodHdr { magic := SL_MAGIC, hash := sl__compute_hash [72, 105],
              len := 2, cap := 3, data := [72, 105, 0] } ∧
    (0 : Nat) ∈ [33, 0] ∧
    ∃ hdr2,
      (sl_append_cstr
        [{ magic := SL_MAGIC, hash := sl__compute_hash [72, 105],
           len := 2, cap := 3, data := [72, 105, 0] }]
        true (some 0) (some [33, 0])).1[(0 : Nat)]? = some hdr2 ∧
      (sl_append_cstr
        [{ magic := SL_MAGIC, hash := sl__compute_hash [72, 105],
           len := 2, cap := 3, data := [72, 105, 0] }]
        true (some 0) (some [33, 0])).2.1 = some 0 ∧
      (sl_append_cstr
        [{ magic := SL_MAGIC, hash := sl__compute_hash [72, 105],
           len := 2, cap := 3, data := [72, 105, 0] }]
        true (some 0) (some [33, 0])).2.2 = sl_err.SL_OK ∧
      content hdr2 =
        content { magic := SL_MAGIC, hash := sl__compute_hash [72, 105],
                  len := 2, cap := 3, data := [72, 105, 0] } ++
          cstrContent [33, 0] ∧
      hdr2.len = ({ magic := SL_MAGIC, hash := sl__compute_hash [72, 105],
                    len := 2, cap := 3,
                    data := [72, 105, 0] } : sl_hdr).len + strlen [33, 0] ∧
      hdr2.cap = hdr2.len + 1 :=
  ⟨by decide, by decide, by decide,
   append_preserves_prefix
     [{ magic := SL_MAGIC, hash := sl__compute_hash [72, 105],
        len := 2, cap := 3, data := [72, 105, 0] }]
     0
     { magic := SL_MAGIC, hash := sl__compute_hash [72, 105],
       len := 2, cap := 3, data := [72, 105, 0] }
     [33, 0] (by decide) (by decide) (by decide)⟩

/-- C10: appending an empty zero-terminated suffix to a valid live
buffer is an identity: it succeeds whether or not the allocator could
serve a request, takes the no-reallocation path, returns the same
reference, and the heap — hence length, capacity, content and stored
hash of the buffer — is unchanged. -/
theorem append_empty_identity (heap : Heap) (a : Nat) (hdr : sl_hdr)
    (s : List Nat) (allocOk : Bool) (hget : heap[a]? = some hdr)
    (hgood : goodHdr hdr) (hz : (0 : Nat) ∈ s) (hs0 : strlen s = 0) :
    sl_append_cstr heap allocOk (some a) (some s) =
      (heap, some a, sl_err.SL_OK) ∧
    sl_append_reallocates heap (some a) s = false := by
  obtain ⟨hm, hcap, hdlen, hterm, hhash⟩ := hgood
  have hdl : hdr.data.length = hdr.len + 1 := by rw [hdlen, hcap]
  constructor
  · simp only [sl_append_cstr, validate_some heap a hdr hget hm, hs0,
      Nat.add_zero, hcap, gt_iff_lt, lt_self_iff_false, decide_False,
      Bool.false_and, Bool.false_eq_true, if_false]
    have hs1 : s.take 1 = [0] := strlen_eq_zero_take s hz hs0
    have hdrop : hdr.data.drop (hdr.len + 1) = [] :=
      List.drop_eq_nil_of_le (by omega)
    have hdata : List.take hdr.len hdr.data ++ [0] = hdr.data := by
      have htail : hdr.data.drop hdr.len = [0] := by
        have h1 : (hdr.data.drop hdr.len).length = 1 := by
          simp [List.length_drop]
          omega
        have h2 : (hdr.data.drop hdr.len)[(0 : Nat)]? = some 0 := by
          rw [List.getElem?_drop]
          simpa using hterm
        rcases hlist : hdr.data.drop hdr.len with - | ⟨x, xs⟩
        · rw [hlist] at h1
          simp at h1
        · rw [hlist] at h1 h2
          simp at h1 h2
          rw [h1, h2]
      conv_rhs => rw [← List.take_append_drop hdr.len hdr.data]
      rw [htail]
    rw [hs1, hdrop, List.append_nil, hdata]
    have hhash2 : sl__compute_hash (List.take hdr.len hdr.data) = hdr.hash :=
      hhash.symm
    rw [hhash2, ← hcap]
    show (heap.set a hdr, some a, sl_err.SL_OK) = (heap, some a, sl_err.SL_OK)
    rw [set_self heap a hdr hget]
  · simp [sl_append_reallocates, validate_some heap a hdr hget hm, hs0, hcap]

/-- Closed instance of `append_empty_identity`: "Hi" with suffix "". -/
theorem append_empty_identity_witness :
    ([{ magic := SL_MAGIC, hash := sl__compute_hash [72, 105],
        len := 2, cap := 3, data := [72, 105, 0] }] : Heap)[(0 : Nat)]? =
      some { magic := SL_MAGIC, hash := sl__compute_hash [72, 105],
             len := 2, cap := 3, data := [72, 105, 0] } ∧
    goodHdr { magic := SL_MAGIC, hash := sl__compute_hash [72, 105],
              len := 2, cap := 3, data := [72, 105, 0] } ∧
    (0 : Nat) ∈ [0] ∧ strlen [0] = 0 ∧
    (sl_append_cstr
        [{ magic := SL_MAGIC, hash := sl__compute_hash [72, 105],
           len := 2, cap := 3, data := [72, 105, 0] }]
        false (some 0) (some [0])) =
      ([{ magic := SL_MAGIC, hash := sl__compute_hash [72, 105],
          len := 2, cap := 3, data := [72, 105, 0] }], some 0, sl_err.SL_OK) ∧
    sl_append_reallocates
      [{ magic := SL_MAGIC, hash := sl__compute_hash [72, 105],
         len := 2, cap := 3, data := [72, 105, 0] }] (some 0) [0] = false := by
  refine ⟨by decide, by decide, by decide, by decide, ?_, ?_⟩ <;>
  · have h := append_empty_identity
      [{ magic := SL_MAGIC, hash := sl__compute_hash [72, 105],
         len := 2, cap := 3, data := [72, 105, 0] }]
      0
      { magic := SL_MAGIC, hash := sl__compute_hash [72, 105],
        len := 2, cap := 3, data := [72, 105, 0] }
      [0] false (by decide) (by decide) (by decide) (by decide)
    first
    | exact h.1
    | exact h.2

/-- The equality operation answers true exactly on equal contents, for
valid live buffers. -/
theorem eq_true_iff (heap : Heap) (a b : Nat) (ha hb : sl_hdr)
    (hga : heap[a]? = some ha) (hgb : heap[b]? = some hb)
    (hgooda : goodHdr ha) (hgoodb : goodHdr hb) :
    (sl_eq heap (some a) (some b)).1 = true ↔ content ha = content hb := by
  obtain ⟨hma, hcapa, hdlena, hterma, hhasha⟩ := hgooda
  obtain ⟨hmb, hcapb, hdlenb, htermb, hhashb⟩ := hgoodb
  have hca : (content ha).length = ha.len := by
    simp [content, List.length_take]
    omega
  have hcb : (content hb).length = hb.len := by
    simp [content, List.length_take]
    omega
  by_cases hab : a = b
  · subst hab
    rw [hga] at hgb
    have heq : ha = hb := Option.some.inj hgb
    subst heq
    simp [sl_eq, validate_some heap a ha hga hma]
  · have hne : (some a : sl_str) ≠ some b := by simpa using hab
    simp only [sl_eq, validate_some heap a ha hga hma,
      validate_some heap b hb hgb hmb, if_neg hne]
    by_cases hh : ha.hash = hb.hash
    · rw [if_neg (not_not_intro hh)]
      by_cases hl : ha.len = hb.len
      · rw [if_neg (not_not_intro hl)]
        simp only [decide_eq_true_iff, content]
        rw [hl]
      · rw [if_pos hl]
        simp only [Bool.false_eq_true, false_iff]
        intro hc
        exact hl (by rw [← hca, ← hcb, hc])
    · rw [if_pos hh]
      simp only [Bool.false_eq_true, false_iff]
      intro hc
      exact hh (by rw [hhasha, hhashb, hc])

/-- C3: for valid live buffers, equals answers true exactly when the two
contents are identical (in length and bytes); it is reflexive — the
identical-reference case answers true with `SL_OK` — and symmetric. -/
theorem eq_consistent_with_content (heap : Heap) (a b : Nat) (ha hb : sl_hdr)
    (hga : heap[a]? = some ha) (hgb : heap[b]? = some hb)
    (hgooda : goodHdr ha) (hgoodb : goodHdr hb) :
    ((sl_eq heap (some a) (some b)).1 = true ↔ content ha = content hb) ∧
    sl_eq heap (some a) (some a) = (true, sl_err.SL_OK) ∧
    (sl_eq heap (some a) (some b)).1 = (sl_eq heap (some b) (some a)).1 := by
  refine ⟨eq_true_iff heap a b ha hb hga hgb hgooda hgoodb, ?_, ?_⟩
  · simp [sl_eq, validate_some heap a ha hga hgooda.1]
  · rw [Bool.eq_iff_iff, eq_true_iff heap a b ha hb hga hgb hgooda hgoodb,
        eq_true_iff heap b a hb ha hgb hga hgoodb hgooda]
    exact eq_comm

/-- Closed instance of `eq_consistent_with_content` on the buffers "Hi"
and "Yo". -/
theorem eq_consistent_with_content_witness :
    ([{ magic := SL_MAGIC, hash := sl__compute_hash [72, 105],
        len := 2, cap := 3, data := [72, 105, 0] },
      { magic := SL_MAGIC, hash := sl__compute_hash [89, 111],
        len := 2, cap := 3, data := [89, 111, 0] }] : Heap)[(0 : Nat)]? =
      some { magic := SL_MAGIC, hash := sl__compute_hash [72, 105],
             len := 2, cap := 3, data := [72, 105, 0] } ∧
    (((sl_eq
        [{ magic := SL_MAGIC, hash := sl__compute_hash [72, 105],
           len := 2, cap := 3, data := [72, 105, 0] },
         { magic := SL_MAGIC, hash := sl__compute_hash [89, 111],
           len := 2, cap := 3, data := [89, 111, 0] }]
        (some 0) (some 1)).1 = true ↔
      content { magic := SL_MAGIC, hash := sl__compute_hash [72, 105],
                len := 2, cap := 3, data := [72, 105, 0] } =
        content { magic := SL_MAGIC, hash := sl__compute_hash [89, 111],
                  len := 2, cap := 3, data := [89, 111, 0] }) ∧
     sl_eq
        [{ magic := SL_MAGIC, hash := sl__compute_hash [72, 105],
           len := 2, cap := 3, data := [72, 105, 0] },
         { magic := SL_MAGIC, hash := sl__compute_hash [89, 111],
           len := 2, cap := 3, data := [89, 111, 0] }]
        (some 0) (some 0) = (true, sl_err.SL_OK) ∧
     (sl_eq
        [{ magic := SL_MAGIC, hash := sl__compute_hash [72, 105],
           len := 2, cap := 3, data := [72, 105, 0] },
         { magic := SL_MAGIC, hash := sl__compute_hash [89, 111],
           len := 2, cap := 3, data := [89, 111, 0] }]
        (some 0) (some 1)).1 =
       (sl_eq
        [{ magic := SL_MAGIC, hash := sl__compute_hash [72, 105],
           len := 2, cap := 3, data := [72, 105, 0] },
         { magic := SL_MAGIC, hash := sl__compute_hash [89, 111],
           len := 2, cap := 3, data := [89, 111, 0] }]
        (some 1) (some 0)).1) :=
  ⟨by decide, eq_consistent_with_content
    [{ magic := SL_MAGIC, hash := sl__compute_hash [72, 105],
       len := 2, cap := 3, data := [72, 105, 0] },
     { magic := SL_MAGIC, hash := sl__compute_hash [89, 111],
       len := 2, cap := 3, data := [89, 111, 0] }]
    0 1
    { magic := SL_MAGIC, hash := sl__compute_hash [72, 105],
      len := 2, cap := 3, data := [72, 105, 0] }
    { magic := SL_MAGIC, hash := sl__compute_hash [89, 111],
      len := 2, cap := 3, data := [89, 111, 0] }
    (by decide) (by decide) (by decide) (by decide)⟩

/-- Closed instance of `eq_error_first` with both operands absent. -/
theorem eq_error_first_witness :
    ((sl__validate [] none).1 ≠ sl_err.SL_OK ∨
     (sl__validate [] none).1 ≠ sl_err.SL_OK) ∧
    ((sl_eq [] none none).1 = false ∧
     (sl_eq [] none none).2 =
       (if (sl__validate [] none).1 ≠ sl_err.SL_OK
        then (sl__validate [] none).1 else (sl__validate [] none).1) ∧
     (sl__validate ([] : Heap) none).1 = sl_err.SL_ERR_NULL) :=
  ⟨by decide, eq_error_first [] none none (by decide)⟩

end SlString
